import Mathlib

/-!
Shallow embedding of the provenance marker module's transfer-restriction
logic (x/marker/keeper/send_restrictions.go) and the marker account entity
(x/marker/types/marker.go), with theorems checking the natural-language
specification against the code.

Addresses are modelled as strings (Go `sdk.AccAddress` compared via
`Equals`/`String()`); coin amounts as integers (`sdkmath.Int`).
External collaborators (marker registry lookup, deny list, attribute
store, address-format validation) are fields of a `Keeper` record or
explicit stand-ins, mirroring how the Go keeper consults them.
-/

deriving instance DecidableEq for Except

namespace Provenance

/-- The access roles from x/marker/types (Access_* constants). -/
inductive Access where
  | admin
  | mint
  | burn
  | deposit
  | withdraw
  | delete
  | transfer
  | forceTransfer
  deriving DecidableEq, Repr

/-- Marker lifecycle status (MarkerStatus). -/
inductive MarkerStatus where
  | undefined
  | proposed
  | finalized
  | active
  | cancelled
  | destroyed
  deriving DecidableEq, Repr

/-- Marker type (MarkerType_Coin / MarkerType_RestrictedCoin). -/
inductive MarkerType where
  | coin
  | restrictedCoin
  deriving DecidableEq, Repr

/-- One address's granted roles on a marker (AccessGrant of accessgrant.go). -/
structure AccessGrant where
  address : String
  permissions : List Access
  deriving DecidableEq, Repr

/-- A denom/amount pair (sdk.Coin). -/
structure Coin where
  denom : String
  amount : Int
  deriving DecidableEq, Repr

/-- A named attribute held by an address (attrTypes.Attribute; only the
Name field is consulted by the send-restriction code). -/
structure Attribute where
  name : String
  deriving DecidableEq, Repr

/-- The marker account record (MarkerAccount), with the fields the
claims exercise. -/
structure MarkerAccount where
  address : String
  denom : String
  manager : String
  supply : Int
  status : MarkerStatus
  markerType : MarkerType
  supplyFixed : Bool
  allowGovernanceControl : Bool
  allowForcedTransfer : Bool
  accessControl : List AccessGrant
  requiredAttributes : List String
  deriving DecidableEq, Repr

/-- Errors produced by the marker entity's own methods (marker.go).
Each constructor corresponds to one fmt.Errorf site. -/
inductive MarkerError where
  | invalidGrant
  | invalidAddress
  | revokeInvalidAddress
  | managerOnlyProposed
  | alreadyRequired (name : String)
  deriving DecidableEq, Repr

/-- Stand-in for the external sdk.VerifyAddressFormat: address encoding
is out of scope (spec section 6); the sdk rejects the empty address, which
is the only aspect the embedded code paths depend on. -/
def VerifyAddressFormat (addr : String) : Bool :=
  !(addr == "")

/-- Modelled from the spec: `hasRole(grant, role)` of the AccessGrant
component (accessgrant.go is not among the provided sources): membership
of the role in the grant's role set. -/
def AccessGrant.hasAccess (g : AccessGrant) (role : Access) : Bool :=
  g.permissions.contains role

/-- Modelled from the spec: AccessGrant validation (accessgrant.go is not
among the provided sources): the grant must carry a well-formed address
and "a role set is never empty when a grant is materialized". -/
def AccessGrant.validate (g : AccessGrant) : Except MarkerError Unit :=
  if !(VerifyAddressFormat g.address) then .error .invalidAddress
  else if g.permissions = [] then .error .invalidGrant
  else .ok ()

/-- Modelled from the spec: `MergeAdd` of the AccessGrant component
(accessgrant.go is not among the provided sources): granting merges with
an existing grant for the same address as the union of roles — the roles
of `other` not already present are appended. -/
def AccessGrant.mergeAdd (g other : AccessGrant) : AccessGrant :=
  { g with permissions := g.permissions ++ other.permissions.filter (fun p => !(g.permissions.contains p)) }

/-- MarkerAccount.HasAccess (marker.go): true if the address has been
assigned the role in the AccessControl list. -/
def MarkerAccount.HasAccess (ma : MarkerAccount) (addr : String) (role : Access) : Bool :=
  ma.accessControl.any (fun g => g.address == addr && g.hasAccess role)

/-- MarkerAccount.AddressHasAccess (marker.go): HasAccess on the
address's string form. -/
def MarkerAccount.AddressHasAccess (ma : MarkerAccount) (addr : String) (role : Access) : Bool :=
  ma.HasAccess addr role

/-- AtLeastOneAddrHasAccess (marker.go): one or more of the addresses has
the role on the marker. -/
def AtLeastOneAddrHasAccess (ma : MarkerAccount) (addrs : List String) (role : Access) : Bool :=
  addrs.any (fun addr => ma.HasAccess addr role)

/-- AddressListForPermission (marker.go): all addresses with the role, in
grant-list order. -/
def MarkerAccount.AddressListForPermission (ma : MarkerAccount) (role : Access) : List String :=
  (ma.accessControl.filter (fun g => g.hasAccess role)).map (fun g => g.address)

/-- MarkerAccount.SetManager (marker.go): a non-empty manager is only
valid while the status is Proposed; the address must pass the sdk format
check. -/
def MarkerAccount.SetManager (ma : MarkerAccount) (manager : String) : Except MarkerError MarkerAccount :=
  if !(manager == "") && !(ma.status = MarkerStatus.proposed) then .error .managerOnlyProposed
  else if !(VerifyAddressFormat manager) then .error .invalidAddress
  else .ok { ma with manager := manager }

/-- MarkerAccount.RevokeAccess (marker.go): removes every AccessGrant for
the address; fails only on a malformed address. -/
def MarkerAccount.RevokeAccess (ma : MarkerAccount) (addr : String) : Except MarkerError MarkerAccount :=
  if !(VerifyAddressFormat addr) then .error .revokeInvalidAddress
  else .ok { ma with accessControl := ma.accessControl.filter (fun ac => !(ac.address == addr)) }

/-- The merge loop of GrantAccess (marker.go): fold the existing entries,
merging into the incoming grant those that carry its address. -/
def mergeExisting (access : AccessGrant) (l : List AccessGrant) : AccessGrant :=
  l.foldl (fun acc ac => if ac.address == acc.address then acc.mergeAdd ac else acc) access

/-- MarkerAccount.GrantAccess (marker.go): validate the incoming grant,
merge into it the roles of every existing entry for the same address,
revoke the existing entries, and append the merged grant. -/
def MarkerAccount.GrantAccess (ma : MarkerAccount) (access : AccessGrant) : Except MarkerError MarkerAccount :=
  match access.validate with
  | .error e => .error e
  | .ok () =>
    match ma.RevokeAccess access.address with
    | .error e => .error e
    | .ok ma' => .ok { ma' with accessControl := ma'.accessControl ++
        [⟨(mergeExisting access ma.accessControl).address, (mergeExisting access ma.accessControl).permissions⟩] }

/-- AddToRequiredAttributes (marker.go): walk `addAttrs`, failing on the
first name already present in the (growing) current list, else appending. -/
def AddToRequiredAttributes (currentAttrs : List String) (addAttrs : List String) : Except MarkerError (List String) :=
  match addAttrs with
  | [] => .ok currentAttrs
  | aa :: rest =>
    if aa ∈ currentAttrs then .error (.alreadyRequired aa)
    else AddToRequiredAttributes (currentAttrs ++ [aa]) rest

/-- strings.HasPrefix on strings modelled as their character sequences. -/
def strHasPrefix (s pre : String) : Bool :=
  pre.data.isPrefixOf s.data

/-- strings.HasSuffix on strings modelled as their character sequences. -/
def strHasSuffix (s suf : String) : Bool :=
  suf.data.isSuffixOf s.data

/-- The Go slice `s[1:]` (drop the leading character; the patterns
involved start with the one-byte character star). -/
def strDrop1 (s : String) : String :=
  ⟨s.data.drop 1⟩

/-- MatchAttribute (send_restrictions.go): empty pattern never matches; a
pattern starting with "*." matches iff the attribute ends with the
pattern minus its leading star (the dot stays part of the suffix);
otherwise exact equality. -/
def MatchAttribute (reqAttr : String) (attr : String) : Bool :=
  if reqAttr.length < 1 then false
  else if strHasPrefix reqAttr "*." then strHasSuffix attr (strDrop1 reqAttr)
  else reqAttr == attr

/-- findMissingAttributes (send_restrictions.go): the required entries
not matched by any provided attribute name, in order. -/
def findMissingAttributes (required : List String) (attributes : List Attribute) : List String :=
  match required with
  | [] => []
  | req :: rest =>
    if attributes.any (fun attr => MatchAttribute req attr.name)
    then findMissingAttributes rest attributes
    else req :: findMissingAttributes rest attributes

/-- Errors produced by the send-restriction code (send_restrictions.go and
the marker.go validators it calls). Each constructor corresponds to one
fmt.Errorf site / propagated error. -/
inductive SendErr where
  /-- an error returned by k.GetMarker, carrying the looked-up address -/
  | markerLookup (addr : String)
  /-- "cannot send restricted denom %s to the fee collector" (bypass branch) -/
  | bypassFeeCollector (denom : String)
  /-- "cannot withdraw from marker account %s (%s)" -/
  | cannotWithdrawNoAgents (fromAddr : String) (denom : String)
  /-- ValidateHasAccess: "%s does not have %s on %s marker (%s)" -/
  | accessSingle (addr : String) (role : Access) (denom : String) (markerAddr : String)
  /-- ValidateAtLeastOneAddrHasAccess: "none of %q have permission %s on %s marker (%s)" -/
  | accessNone (addrs : List String) (role : Access) (denom : String) (markerAddr : String)
  /-- "cannot withdraw %s from %s marker (%s): marker status (%s) is not %s" -/
  | markerNotActive (amt : Coin) (denom : String) (fromAddr : String) (status : MarkerStatus)
  /-- "cannot send %s coins: marker status (%s) is not %s" -/
  | denomNotActive (denom : String) (status : MarkerStatus)
  /-- "restricted denom %s cannot be sent to the fee collector" -/
  | feeCollector (denom : String)
  /-- "%s is on deny list for sending restricted marker" -/
  | senderDenied (fromAddr : String)
  /-- "%s does not have %s on %s marker (%s)" (no admins, marker destination) -/
  | transferSingle (fromAddr : String) (denom : String) (markerAddr : String)
  /-- "none of %q have %s on %s marker (%s)" (admins present, marker destination) -/
  | transferMulti (addrs : List String) (denom : String) (markerAddr : String)
  /-- "%s does not have transfer permissions for %s" -/
  | noTransferPerm (fromAddr : String) (denom : String)
  /-- "could not get attributes for %s" -/
  | attrLookup (toAddr : String)
  /-- "address %s does not contain the %q required attribute(s)" -/
  | missingAttrs (toAddr : String) (denom : String) (missing : List String)
  deriving DecidableEq, Repr

/-- ValidateHasAccess (marker.go): error naming the address when it lacks
the role. -/
def MarkerAccount.ValidateHasAccess (ma : MarkerAccount) (addr : String) (role : Access) : Except SendErr Unit :=
  if !(ma.HasAccess addr role) then .error (.accessSingle addr role ma.denom ma.address)
  else .ok ()

/-- ValidateAddressHasAccess (marker.go): ValidateHasAccess on the
address's string form. -/
def MarkerAccount.ValidateAddressHasAccess (ma : MarkerAccount) (addr : String) (role : Access) : Except SendErr Unit :=
  ma.ValidateHasAccess addr role

/-- ValidateAtLeastOneAddrHasAccess (marker.go): single-address case
defers to ValidateHasAccess; otherwise errors naming all addresses when
none has the role. -/
def ValidateAtLeastOneAddrHasAccess (ma : MarkerAccount) (addrs : List String) (role : Access) : Except SendErr Unit :=
  if addrs.length = 1 then ma.ValidateHasAccess (addrs.headI) role
  else if !(AtLeastOneAddrHasAccess ma addrs role) then .error (.accessNone addrs role ma.denom ma.address)
  else .ok ()

/-- The keeper state and external collaborators consulted by
SendRestrictionFn: module/fee-collector addresses, the denom-to-marker
address derivation (MustGetMarkerAddress), the marker registry
(GetMarker, which may fail), the send-deny list, the required-attribute
bypass list, and the attribute store. -/
structure Keeper where
  markerModuleAddr : String
  ibcTransferModuleAddr : String
  feeCollectorAddr : String
  markerAddressOf : String → String
  getMarker : String → Except Unit (Option MarkerAccount)
  isSendDeny : String → String → Bool
  isReqAttrBypassAddr : String → Bool
  getAllAttributesAddr : String → Except Unit (List Attribute)

/-- The ambient request context: bypass flag (types.HasBypass), fee-grant
flag (internalsdk.HasFeeGrantInUse) and transfer agents
(types.GetTransferAgents). -/
structure Ctx where
  hasBypass : Bool
  hasFeeGrantInUse : Bool
  transferAgents : List String

/-- GetMarker at a call site that discards the error (`m, _ :=`): a
failed lookup yields no marker. -/
def Keeper.getMarkerOpt (k : Keeper) (addr : String) : Option MarkerAccount :=
  match k.getMarker addr with
  | .error _ => none
  | .ok m => m

/-- sdk.Coins.Find: the coin of the given denom, if present. -/
def findCoin (amt : List Coin) (denom : String) : Option Coin :=
  amt.find? (fun c => c.denom == denom)

/-- validateSendDenom (send_restrictions.go): the per-denom rule chain. -/
def Keeper.validateSendDenom (k : Keeper) (fromAddr toAddr : String) (admins : List String)
    (denom : String) (toMarker : Option MarkerAccount) : Except SendErr Unit :=
  match k.getMarker (k.markerAddressOf denom) with
  | .error _ => .error (.markerLookup (k.markerAddressOf denom))
  | .ok none => .ok ()
  | .ok (some marker) =>
    -- If there's a marker, it must be active.
    if !(marker.status = MarkerStatus.active) then .error (.denomNotActive denom marker.status)
    -- If it's not a restricted marker, there's nothing more to do here.
    else if !(marker.markerType = MarkerType.restrictedCoin) then .ok ()
    -- We can't allow restricted coins to end up with the fee collector.
    else if toAddr == k.feeCollectorAddr then .error (.feeCollector denom)
    -- If there's an admin that has transfer access, nothing more to do here.
    else if 0 < admins.length && AtLeastOneAddrHasAccess marker admins Access.transfer then .ok ()
    -- The send-deny list is enforced before the sender's own transfer access.
    else if k.isSendDeny (k.markerAddressOf denom) fromAddr then .error (.senderDenied fromAddr)
    -- If the fromAddr has transfer access, there's nothing left to check.
    else if marker.AddressHasAccess fromAddr Access.transfer then .ok ()
    else match toMarker with
      -- Going to a marker: transfer permission is required regardless of bypass.
      | some _ =>
        if admins.length = 0 then .error (.transferSingle fromAddr denom marker.address)
        else .error (.transferMulti (fromAddr :: admins) denom marker.address)
      | none =>
        if marker.requiredAttributes.length = 0 then
          if k.isReqAttrBypassAddr fromAddr then .ok ()
          else .error (.noTransferPerm fromAddr denom)
        else if k.isReqAttrBypassAddr toAddr then .ok ()
        else match k.getAllAttributesAddr toAddr with
          | .error _ => .error (.attrLookup toAddr)
          | .ok attributes =>
            if !((findMissingAttributes marker.requiredAttributes attributes).length = 0) then
              .error (.missingAttrs toAddr denom (findMissingAttributes marker.requiredAttributes attributes))
            else .ok ()

/-- The bypass-branch loop of SendRestrictionFn: restricted denoms still
may not be sent to the fee collector. -/
def Keeper.checkFeeCollectorLoop (k : Keeper) (amt : List Coin) : Except SendErr Unit :=
  match amt with
  | [] => .ok ()
  | coin :: rest =>
    match k.getMarker (k.markerAddressOf coin.denom) with
    | .error _ => .error (.markerLookup (k.markerAddressOf coin.denom))
    | .ok none => k.checkFeeCollectorLoop rest
    | .ok (some marker) =>
      if marker.markerType = MarkerType.restrictedCoin then .error (.bypassFeeCollector coin.denom)
      else k.checkFeeCollectorLoop rest

/-- The withdraw-authorization block of SendRestrictionFn (lines 49-59):
at least one transfer agent must hold Withdraw on the sender's marker. -/
def withdrawCheck (fromMarker : MarkerAccount) (fromAddr : String) (admins : List String) : Except SendErr Unit :=
  if admins.length = 0 then .error (.cannotWithdrawNoAgents fromAddr fromMarker.denom)
  else ValidateAtLeastOneAddrHasAccess fromMarker admins Access.withdraw

/-- The marker-status block of SendRestrictionFn (lines 61-69): a
non-active sender marker may not move a positive amount of its own denom. -/
def activeStatusCheck (fromMarker : MarkerAccount) (fromAddr : String) (amt : List Coin) : Except SendErr Unit :=
  if !(fromMarker.status = MarkerStatus.active) then
    match findCoin amt fromMarker.denom with
    | some fromAmt =>
      if !(fromAmt.amount = 0) then .error (.markerNotActive fromAmt fromMarker.denom fromAddr fromMarker.status)
      else .ok ()
    | none => .ok ()
  else .ok ()

/-- The deposit block of SendRestrictionFn (lines 72-85): deposits into a
restricted marker need Deposit access, checked against the agents if any,
else against the sender. -/
def depositCheck (fromAddr : String) (admins : List String) (toMarker : Option MarkerAccount) : Except SendErr Unit :=
  match toMarker with
  | none => .ok ()
  | some tm =>
    if tm.markerType = MarkerType.restrictedCoin then
      if 0 < admins.length then ValidateAtLeastOneAddrHasAccess tm admins Access.deposit
      else tm.ValidateAddressHasAccess fromAddr Access.deposit
    else .ok ()

/-- The per-denom loop of SendRestrictionFn (lines 87-92). -/
def Keeper.validateSendDenomLoop (k : Keeper) (fromAddr toAddr : String) (admins : List String)
    (toMarker : Option MarkerAccount) (amt : List Coin) : Except SendErr Unit :=
  match amt with
  | [] => .ok ()
  | coin :: rest =>
    match k.validateSendDenom fromAddr toAddr admins coin.denom toMarker with
    | .error e => .error e
    | .ok () => k.validateSendDenomLoop fromAddr toAddr admins toMarker rest

/-- The tail of SendRestrictionFn after the sender-marker checks: resolve
the destination marker, run the deposit check, then the per-denom loop. -/
def Keeper.sendRestrictionRest (k : Keeper) (fromAddr toAddr : String) (admins : List String)
    (amt : List Coin) : Except SendErr String :=
  match depositCheck fromAddr admins (k.getMarkerOpt toAddr) with
  | .error e => .error e
  | .ok () =>
    match k.validateSendDenomLoop fromAddr toAddr admins (k.getMarkerOpt toAddr) amt with
    | .error e => .error e
    | .ok () => .ok toAddr

/-- The tail of SendRestrictionFn's sender-marker branch once the
withdraw-authorization block is passed or skipped: the marker-status
check, then the rest of the checks. -/
def Keeper.afterWithdrawChecks (k : Keeper) (fm : MarkerAccount) (fromAddr toAddr : String)
    (admins : List String) (amt : List Coin) : Except SendErr String :=
  match activeStatusCheck fm fromAddr amt with
  | .error e => .error e
  | .ok () => k.sendRestrictionRest fromAddr toAddr admins amt

/-- SendRestrictionFn (send_restrictions.go): the top-level decision. -/
def Keeper.SendRestrictionFn (k : Keeper) (ctx : Ctx) (fromAddr toAddr : String)
    (amt : List Coin) : Except SendErr String :=
  if ctx.hasBypass || fromAddr == k.markerModuleAddr || fromAddr == k.ibcTransferModuleAddr then
    -- But still don't let restricted denoms get sent to the fee collector.
    if toAddr == k.feeCollectorAddr then
      match k.checkFeeCollectorLoop amt with
      | .error e => .error e
      | .ok () => .ok toAddr
    else .ok toAddr
  else
    match k.getMarkerOpt fromAddr with
    | some fromMarker =>
      match (if !ctx.hasFeeGrantInUse then withdrawCheck fromMarker fromAddr ctx.transferAgents else .ok ()) with
      | .error e => .error e
      | .ok () => k.afterWithdrawChecks fromMarker fromAddr toAddr ctx.transferAgents amt
    | none => k.sendRestrictionRest fromAddr toAddr ctx.transferAgents amt

/-! ## Claim C5: MatchAttribute semantics -/

/-- C5: `MatchAttribute` returns false on the empty pattern; on a pattern
starting with "*." it returns true iff the attribute name ends with the
pattern minus only its leading star (the dot stays part of the required
suffix); otherwise it returns true iff pattern and attribute are equal. -/
theorem matchAttribute_spec (reqAttr attr : String) :
    (reqAttr = "" → MatchAttribute reqAttr attr = false) ∧
    (strHasPrefix reqAttr "*." = true →
      MatchAttribute reqAttr attr = strHasSuffix attr (strDrop1 reqAttr)) ∧
    (reqAttr ≠ "" → strHasPrefix reqAttr "*." = false →
      MatchAttribute reqAttr attr = (reqAttr == attr)) := by
  refine ⟨?_, ?_, ?_⟩
  · intro h
    subst h
    rfl
  · intro h
    obtain ⟨data⟩ := reqAttr
    cases data with
    | nil => exact absurd h (by decide)
    | cons c cs =>
      unfold MatchAttribute
      rw [if_neg (by simp [String.length]), if_pos h]
  · intro hne h
    obtain ⟨data⟩ := reqAttr
    cases data with
    | nil => exact absurd rfl hne
    | cons c cs =>
      unfold MatchAttribute
      rw [if_neg (by simp [String.length]), if_neg (by simp [h])]

/-- Witness for C5 at concrete inputs. -/
theorem matchAttribute_spec_witness :
    MatchAttribute "" "kyc.example" = false ∧
    MatchAttribute "*.kyc.example" "a.kyc.example" = strHasSuffix "a.kyc.example" (strDrop1 "*.kyc.example") ∧
    MatchAttribute "kyc.example" "kyc.example" = ("kyc.example" == "kyc.example") :=
  ⟨(matchAttribute_spec "" "kyc.example").1 rfl,
   (matchAttribute_spec "*.kyc.example" "a.kyc.example").2.1 (by decide),
   (matchAttribute_spec "kyc.example" "kyc.example").2.2 (by decide) (by decide)⟩

/-! ## Claim C6: findMissing test vectors -/

/-- C6 counterexample: the spec's second vector is wrong on the code.
`"kyc.example"` does not end with `".kyc.example"`, so it does not match
the wildcard pattern and `findMissingAttributes` reports the pattern as
missing rather than returning the empty list. -/
theorem findMissing_vector2_counterexample :
    findMissingAttributes ["*.kyc.example"] [⟨"kyc.example"⟩] = ["*.kyc.example"] ∧
    findMissingAttributes ["*.kyc.example"] [⟨"kyc.example"⟩] ≠ .nil := by
  decide

/-- C6 amended: the first and third spec vectors hold; the second yields
`["*.kyc.example"]` (the bare root name does not satisfy the wildcard
pattern), not `[]`. -/
theorem findMissing_spec_vectors :
    findMissingAttributes ["*.kyc.example"] [⟨"a.kyc.example"⟩] = [] ∧
    findMissingAttributes ["*.kyc.example"] [⟨"kyc.example"⟩] = ["*.kyc.example"] ∧
    findMissingAttributes ["kyc.example"] [⟨"sub.kyc.example"⟩] = ["kyc.example"] := by
  decide

/-! ## Claim C8: SetManager requires Proposed status -/

/-- C8: setting a (non-empty) manager address fails with the
proposed-only error whenever the marker status is not Proposed; when the
status is Proposed and the address passes the format check, the manager
field is set to that address. -/
theorem setManager_spec (ma : MarkerAccount) (manager : String) :
    (¬(ma.status = MarkerStatus.proposed) → manager ≠ "" →
      ma.SetManager manager = .error .managerOnlyProposed) ∧
    (ma.status = MarkerStatus.proposed → VerifyAddressFormat manager = true →
      ma.SetManager manager = .ok { ma with manager := manager }) := by
  constructor
  · intro h1 h2
    unfold MarkerAccount.SetManager
    rw [if_pos]
    simp [h1, h2]
  · intro h1 h2
    unfold MarkerAccount.SetManager
    rw [if_neg (by simp [h1]), if_neg (by simp [h2])]

/-- Witness for C8 at concrete markers. -/
theorem setManager_spec_witness :
    (({ address := "mAddr", denom := "md", manager := "", supply := 10,
        status := MarkerStatus.active, markerType := MarkerType.coin,
        supplyFixed := true, allowGovernanceControl := true,
        allowForcedTransfer := false, accessControl := [],
        requiredAttributes := [] } : MarkerAccount).SetManager "mgr"
      = .error .managerOnlyProposed) ∧
    (({ address := "mAddr", denom := "md", manager := "", supply := 10,
        status := MarkerStatus.proposed, markerType := MarkerType.coin,
        supplyFixed := true, allowGovernanceControl := true,
        allowForcedTransfer := false, accessControl := [],
        requiredAttributes := [] } : MarkerAccount).SetManager "mgr"
      = .ok { address := "mAddr", denom := "md", manager := "mgr", supply := 10,
              status := MarkerStatus.proposed, markerType := MarkerType.coin,
              supplyFixed := true, allowGovernanceControl := true,
              allowForcedTransfer := false, accessControl := [],
              requiredAttributes := [] }) :=
  ⟨(setManager_spec _ "mgr").1 (by decide) (by decide),
   (setManager_spec _ "mgr").2 rfl (by decide)⟩

/-! ## Claim C9: AddToRequiredAttributes duplicate handling -/

/-- C9 counterexample: with `current = []` and `toAdd = ["a", "a"]`, no
name of `toAdd` is present in `current`, yet the call fails with the
already-required error instead of appending both names: the duplicate
check also sees the names appended earlier in the same call. -/
theorem addRequired_dup_counterexample :
    AddToRequiredAttributes [] ["a", "a"] = .error (.alreadyRequired "a") ∧
    ¬("a" ∈ ([] : List String)) ∧
    AddToRequiredAttributes [] ["a", "a"] ≠ .ok (([] : List String) ++ ["a", "a"]) := by
  decide

/-- C9 amended: AddToRequiredAttributes fails with AlreadyRequired naming
the first name of `toAdd` present in `current` or among the earlier names
of `toAdd` itself; when no name of `toAdd` is in `current` and `toAdd`
has no internal duplicate, it appends all names in order; and adding the
same name in two successive calls fails with AlreadyRequired on the
second call. -/
theorem addRequired_spec :
    (∀ current toAdd : List String, (∀ a ∈ toAdd, a ∉ current) → toAdd.Nodup →
      AddToRequiredAttributes current toAdd = .ok (current ++ toAdd)) ∧
    (∀ (current pre post : List String) (a : String),
      (∀ x ∈ pre, x ∉ current) → pre.Nodup → (a ∈ current ∨ a ∈ pre) →
      AddToRequiredAttributes current (pre ++ a :: post) = .error (.alreadyRequired a)) ∧
    (∀ (current l : List String) (a : String),
      AddToRequiredAttributes current [a] = .ok l →
      AddToRequiredAttributes l [a] = .error (.alreadyRequired a)) := by
  refine ⟨?_, ?_, ?_⟩
  · intro current toAdd
    induction toAdd generalizing current with
    | nil => intro _ _; simp [AddToRequiredAttributes]
    | cons aa rest ih =>
      intro hnotin hnodup
      unfold AddToRequiredAttributes
      rw [if_neg (hnotin aa (by simp))]
      have hrest : ∀ a ∈ rest, a ∉ current ++ [aa] := by
        intro a ha
        simp only [List.mem_append, List.mem_singleton]
        rintro (hc | rfl)
        · exact hnotin a (by simp [ha]) hc
        · exact (List.nodup_cons.mp hnodup).1 ha
      rw [ih (current ++ [aa]) hrest (List.nodup_cons.mp hnodup).2]
      simp
  · intro current pre post a
    induction pre generalizing current with
    | nil =>
      intro _ _ hmem
      have ha : a ∈ current := by
        rcases hmem with h | h
        · exact h
        · simp at h
      show AddToRequiredAttributes current ([] ++ a :: post) = _
      rw [List.nil_append]
      unfold AddToRequiredAttributes
      rw [if_pos ha]
    | cons p ps ih =>
      intro hnotin hnodup hmem
      show AddToRequiredAttributes current (p :: (ps ++ a :: post)) = _
      unfold AddToRequiredAttributes
      rw [if_neg (hnotin p (by simp))]
      apply ih
      · intro x hx
        simp only [List.mem_append, List.mem_singleton]
        rintro (hc | rfl)
        · exact hnotin x (by simp [hx]) hc
        · exact (List.nodup_cons.mp hnodup).1 hx
      · exact (List.nodup_cons.mp hnodup).2
      · rcases hmem with h | h
        · exact Or.inl (by simp [h])
        · rcases List.mem_cons.mp h with rfl | h
          · exact Or.inl (by simp)
          · exact Or.inr h
  · intro current l a h
    by_cases hmem : a ∈ current
    · simp [AddToRequiredAttributes, hmem] at h
    · have hl : l = current ++ [a] := by
        simpa [AddToRequiredAttributes, hmem] using h.symm
      subst hl
      simp [AddToRequiredAttributes]

/-- Witness for C9 at concrete lists. -/
theorem addRequired_spec_witness :
    AddToRequiredAttributes ["x"] ["y", "z"] = .ok (["x"] ++ ["y", "z"]) ∧
    AddToRequiredAttributes ["x"] (["y"] ++ "x" :: ["w"]) = .error (.alreadyRequired "x") ∧
    AddToRequiredAttributes ["x", "y"] ["y"] = .error (.alreadyRequired "y") :=
  ⟨addRequired_spec.1 ["x"] ["y", "z"] (by decide) (by decide),
   addRequired_spec.2.1 ["x"] ["y"] ["w"] "x" (by decide) (by decide) (Or.inl (by decide)),
   addRequired_spec.2.2 ["x"] ["x", "y"] "y" (by decide)⟩

/-! ## Classifiers over the error taxonomy -/

/-- The spec's `WithdrawNotAuthorized` failures: the no-agents error and
the Withdraw-access validation errors. -/
def SendErr.isWithdrawNotAuthorized : SendErr → Bool
  | .cannotWithdrawNoAgents _ _ => true
  | .accessSingle _ role _ _ => role == Access.withdraw
  | .accessNone _ role _ _ => role == Access.withdraw
  | _ => false

/-- A send-restriction outcome that denies with `WithdrawNotAuthorized`. -/
def isWithdrawDenial : Except SendErr String → Bool
  | .error e => e.isWithdrawNotAuthorized
  | .ok _ => false

/-- The spec's `RestrictedToFeeCollector` failures (bypass branch and
per-denom rule). -/
def SendErr.isRestrictedToFeeCollector : SendErr → Bool
  | .bypassFeeCollector _ => true
  | .feeCollector _ => true
  | _ => false

/-- A send-restriction outcome that denies with `RestrictedToFeeCollector`. -/
def isFeeCollectorDenial : Except SendErr String → Bool
  | .error e => e.isRestrictedToFeeCollector
  | .ok _ => false

/-! ## Concrete fixtures used by witnesses and counterexamples -/

/-- An active restricted marker for denom "rcoin"; "alice" holds Transfer. -/
def mRestricted : MarkerAccount :=
  { address := "M-rcoin", denom := "rcoin", manager := "", supply := 1000,
    status := MarkerStatus.active, markerType := MarkerType.restrictedCoin,
    supplyFixed := true, allowGovernanceControl := true, allowForcedTransfer := false,
    accessControl := [⟨"alice", [Access.transfer]⟩, ⟨"dave", [Access.transfer]⟩],
    requiredAttributes := [] }

/-- A proposed (non-active) restricted marker for denom "pcoin". -/
def mProposed : MarkerAccount :=
  { address := "M-pcoin", denom := "pcoin", manager := "mgr", supply := 0,
    status := MarkerStatus.proposed, markerType := MarkerType.restrictedCoin,
    supplyFixed := true, allowGovernanceControl := true, allowForcedTransfer := false,
    accessControl := [⟨"alice", [Access.transfer]⟩], requiredAttributes := [] }

/-- A finalized (non-active) marker whose account address is "fromMarker";
"agentW" holds Withdraw. -/
def mFrom : MarkerAccount :=
  { address := "fromMarker", denom := "fcoin", manager := "mgr", supply := 100,
    status := MarkerStatus.finalized, markerType := MarkerType.coin,
    supplyFixed := true, allowGovernanceControl := true, allowForcedTransfer := false,
    accessControl := [⟨"agentW", [Access.withdraw]⟩], requiredAttributes := [] }

/-- A concrete keeper: marker addresses are "M-" ++ denom, the registry
holds the three fixture markers, and "alice" is on the deny list of the
"rcoin" marker. -/
def kTest : Keeper :=
  { markerModuleAddr := "markerModule",
    ibcTransferModuleAddr := "ibcModule",
    feeCollectorAddr := "feeCollector",
    markerAddressOf := fun d => "M-" ++ d,
    getMarker := fun a =>
      if a = "M-rcoin" then .ok (some mRestricted)
      else if a = "M-pcoin" then .ok (some mProposed)
      else if a = "fromMarker" then .ok (some mFrom)
      else .ok none,
    isSendDeny := fun mAddr f => mAddr == "M-rcoin" && f == "alice",
    isReqAttrBypassAddr := fun _ => false,
    getAllAttributesAddr := fun _ => .ok [] }

/-! ## Helper lemmas on the withdraw-authorization block -/

/-- When no transfer agent holds Withdraw on the sender's marker (in
particular when there are no agents), the withdraw block denies with a
`WithdrawNotAuthorized` error. -/
theorem withdrawCheck_fails (fm : MarkerAccount) (fromAddr : String) (admins : List String)
    (hw : AtLeastOneAddrHasAccess fm admins Access.withdraw = false) :
    ∃ e, withdrawCheck fm fromAddr admins = .error e ∧ e.isWithdrawNotAuthorized = true := by
  cases admins with
  | nil =>
    exact ⟨.cannotWithdrawNoAgents fromAddr fm.denom, by simp [withdrawCheck], rfl⟩
  | cons a rest =>
    cases rest with
    | nil =>
      have hha : fm.HasAccess a Access.withdraw = false := by
        simpa [AtLeastOneAddrHasAccess] using hw
      refine ⟨.accessSingle a Access.withdraw fm.denom fm.address, ?_, by rfl⟩
      simp [withdrawCheck, ValidateAtLeastOneAddrHasAccess, MarkerAccount.ValidateHasAccess, hha]
    | cons b rest2 =>
      refine ⟨.accessNone (a :: b :: rest2) Access.withdraw fm.denom fm.address, ?_, by rfl⟩
      simp [withdrawCheck, ValidateAtLeastOneAddrHasAccess, hw]

/-- When some transfer agent holds Withdraw on the sender's marker, the
withdraw block passes. -/
theorem withdrawCheck_passes (fm : MarkerAccount) (fromAddr : String) (admins : List String)
    (hne : admins ≠ []) (hw : AtLeastOneAddrHasAccess fm admins Access.withdraw = true) :
    withdrawCheck fm fromAddr admins = .ok () := by
  cases admins with
  | nil => exact absurd rfl hne
  | cons a rest =>
    cases rest with
    | nil =>
      have hha : fm.HasAccess a Access.withdraw = true := by
        simpa [AtLeastOneAddrHasAccess] using hw
      simp [withdrawCheck, ValidateAtLeastOneAddrHasAccess, MarkerAccount.ValidateHasAccess, hha]
    | cons b rest2 =>
      simp [withdrawCheck, ValidateAtLeastOneAddrHasAccess, hw]

/-! ## Claim C1: deny-list precedence in validateSendDenom -/

/-- C1: on an active restricted marker, when the destination is not the
fee collector and no transfer agent holds Transfer, a sender on the
marker's deny list is denied with SenderDenied — regardless of the
sender's own Transfer grant, which is only consulted after the deny-list
check. -/
theorem validateSendDenom_denyList_precedence
    (k : Keeper) (fromAddr toAddr : String) (admins : List String) (denom : String)
    (toMarker : Option MarkerAccount) (marker : MarkerAccount)
    (hlookup : k.getMarker (k.markerAddressOf denom) = .ok (some marker))
    (hactive : marker.status = MarkerStatus.active)
    (hrestricted : marker.markerType = MarkerType.restrictedCoin)
    (hfee : (toAddr == k.feeCollectorAddr) = false)
    (hagents : AtLeastOneAddrHasAccess marker admins Access.transfer = false)
    (hdeny : k.isSendDeny (k.markerAddressOf denom) fromAddr = true) :
    k.validateSendDenom fromAddr toAddr admins denom toMarker = .error (.senderDenied fromAddr) := by
  simp [Keeper.validateSendDenom, hlookup, hactive, hrestricted, hfee, hagents, hdeny]

/-- Witness for C1: "alice" holds Transfer on the active restricted
"rcoin" marker and is on its deny list; the per-denom rule denies with
SenderDenied. -/
theorem validateSendDenom_denyList_witness :
    kTest.validateSendDenom "alice" "bob" [] "rcoin" none = .error (.senderDenied "alice") ∧
    mRestricted.AddressHasAccess "alice" Access.transfer = true ∧
    mRestricted.status = MarkerStatus.active ∧
    mRestricted.markerType = MarkerType.restrictedCoin :=
  ⟨validateSendDenom_denyList_precedence kTest "alice" "bob" [] "rcoin" none mRestricted
     (by decide) (by decide) (by decide) (by decide) (by decide) (by decide),
   by decide, by decide, by decide⟩

/-! ## Claim C3: withdraw authorization for sends from a marker account -/

/-- C3: on a non-bypassed transfer whose sender is a marker account,
without a fee grant the transfer is denied with WithdrawNotAuthorized
whenever the transfer-agent list is empty or no agent holds Withdraw on
the sender's marker; with a fee grant in use the withdraw block is
skipped and evaluation proceeds to the remaining checks. -/
theorem sendRestriction_withdraw_spec
    (k : Keeper) (ctx : Ctx) (fromAddr toAddr : String) (amt : List Coin) (fm : MarkerAccount)
    (hnb : ctx.hasBypass = false)
    (hm1 : (fromAddr == k.markerModuleAddr) = false)
    (hm2 : (fromAddr == k.ibcTransferModuleAddr) = false)
    (hfm : k.getMarkerOpt fromAddr = some fm) :
    (ctx.hasFeeGrantInUse = false →
      (ctx.transferAgents = [] ∨ AtLeastOneAddrHasAccess fm ctx.transferAgents Access.withdraw = false) →
      isWithdrawDenial (k.SendRestrictionFn ctx fromAddr toAddr amt) = true) ∧
    (ctx.hasFeeGrantInUse = true →
      k.SendRestrictionFn ctx fromAddr toAddr amt =
        k.afterWithdrawChecks fm fromAddr toAddr ctx.transferAgents amt) := by
  constructor
  · intro hfg hdisj
    have hw : AtLeastOneAddrHasAccess fm ctx.transferAgents Access.withdraw = false := by
      rcases hdisj with h | h
      · simp [AtLeastOneAddrHasAccess, h]
      · exact h
    obtain ⟨e, he, hcl⟩ := withdrawCheck_fails fm fromAddr ctx.transferAgents hw
    simp [Keeper.SendRestrictionFn, hnb, hm1, hm2, hfm, hfg, he, isWithdrawDenial, hcl]
  · intro hfg
    simp [Keeper.SendRestrictionFn, hnb, hm1, hm2, hfm, hfg]

/-- Witness for C3: sends from the "fromMarker" account are denied
without a Withdraw-holding agent, and proceed past the withdraw block
when a fee grant is in use. -/
theorem sendRestriction_withdraw_witness :
    isWithdrawDenial (kTest.SendRestrictionFn ⟨false, false, ["agent1"]⟩ "fromMarker" "bob" []) = true ∧
    kTest.SendRestrictionFn ⟨false, true, []⟩ "fromMarker" "bob" [] =
      kTest.afterWithdrawChecks mFrom "fromMarker" "bob" [] [] :=
  ⟨(sendRestriction_withdraw_spec kTest ⟨false, false, ["agent1"]⟩ "fromMarker" "bob" [] mFrom
      rfl (by decide) (by decide) (by decide)).1 rfl (Or.inr (by decide)),
   (sendRestriction_withdraw_spec kTest ⟨false, true, []⟩ "fromMarker" "bob" [] mFrom
      rfl (by decide) (by decide) (by decide)).2 rfl⟩

/-! ## Claim C4: non-active sender marker and its own denom -/

/-- C4: on a non-bypassed transfer from a marker account whose status is
not Active, once the withdraw block passes (fee grant, or an agent with
Withdraw), a positive amount of the marker's own denom is denied with
MarkerNotActive, while amounts that do not include a positive amount of
that denom proceed to the remaining checks. -/
theorem sendRestriction_fromMarker_active_spec
    (k : Keeper) (ctx : Ctx) (fromAddr toAddr : String) (amt : List Coin) (fm : MarkerAccount)
    (hnb : ctx.hasBypass = false)
    (hm1 : (fromAddr == k.markerModuleAddr) = false)
    (hm2 : (fromAddr == k.ibcTransferModuleAddr) = false)
    (hfm : k.getMarkerOpt fromAddr = some fm)
    (hwd : ctx.hasFeeGrantInUse = true ∨
      (ctx.transferAgents ≠ [] ∧ AtLeastOneAddrHasAccess fm ctx.transferAgents Access.withdraw = true))
    (hst : ¬(fm.status = MarkerStatus.active)) :
    (∀ c, findCoin amt fm.denom = some c → ¬(c.amount = 0) →
      k.SendRestrictionFn ctx fromAddr toAddr amt = .error (.markerNotActive c fm.denom fromAddr fm.status)) ∧
    ((∀ c ∈ amt, c.denom = fm.denom → c.amount = 0) →
      k.SendRestrictionFn ctx fromAddr toAddr amt = k.sendRestrictionRest fromAddr toAddr ctx.transferAgents amt) := by
  have hpass : (if ctx.hasFeeGrantInUse = false then withdrawCheck fm fromAddr ctx.transferAgents else .ok ()) = .ok () := by
    rcases hwd with h | ⟨hne, hw⟩
    · simp [h]
    · by_cases hfg : ctx.hasFeeGrantInUse
      · simp [hfg]
      · simp only [Bool.not_eq_true] at hfg
        simp [hfg, withdrawCheck_passes fm fromAddr ctx.transferAgents hne hw]
  constructor
  · intro c hfind hcz
    have hstatus : activeStatusCheck fm fromAddr amt =
        .error (.markerNotActive c fm.denom fromAddr fm.status) := by
      simp [activeStatusCheck, hst, hfind, hcz]
    simp [Keeper.SendRestrictionFn, hnb, hm1, hm2, hfm, hpass, Keeper.afterWithdrawChecks, hstatus]
  · intro hz
    have hstatus : activeStatusCheck fm fromAddr amt = .ok () := by
      unfold activeStatusCheck
      rw [if_pos (by simp [hst])]
      cases hfind : findCoin amt fm.denom with
      | none => rfl
      | some c =>
        have hmem : c ∈ amt := List.mem_of_find?_eq_some hfind
        have hden : c.denom = fm.denom := by
          have := List.find?_some hfind
          simpa using this
        simp [hz c hmem hden]
    simp [Keeper.SendRestrictionFn, hnb, hm1, hm2, hfm, hpass, Keeper.afterWithdrawChecks, hstatus]

/-- Witness for C4: the finalized "fromMarker" marker cannot move its own
"fcoin" even with a Withdraw-holding agent, while another denom proceeds
to the remaining checks. -/
theorem sendRestriction_fromMarker_active_witness :
    kTest.SendRestrictionFn ⟨false, false, ["agentW"]⟩ "fromMarker" "bob" [⟨"fcoin", 5⟩]
      = .error (.markerNotActive ⟨"fcoin", 5⟩ "fcoin" "fromMarker" MarkerStatus.finalized) ∧
    AtLeastOneAddrHasAccess mFrom ["agentW"] Access.withdraw = true ∧
    kTest.SendRestrictionFn ⟨false, false, ["agentW"]⟩ "fromMarker" "bob" [⟨"ocoin", 5⟩]
      = kTest.sendRestrictionRest "fromMarker" "bob" ["agentW"] [⟨"ocoin", 5⟩] :=
  ⟨(sendRestriction_fromMarker_active_spec kTest ⟨false, false, ["agentW"]⟩ "fromMarker" "bob"
      [⟨"fcoin", 5⟩] mFrom rfl (by decide) (by decide) (by decide)
      (Or.inr ⟨by decide, by decide⟩) (by decide)).1 ⟨"fcoin", 5⟩ (by decide) (by decide),
   by decide,
   (sendRestriction_fromMarker_active_spec kTest ⟨false, false, ["agentW"]⟩ "fromMarker" "bob"
      [⟨"ocoin", 5⟩] mFrom rfl (by decide) (by decide) (by decide)
      (Or.inr ⟨by decide, by decide⟩) (by decide)).2 (by decide)⟩

/-! ## Claim C2: restricted denoms and the fee collector -/

/-- A send-restriction outcome that allows the transfer. -/
def isAllowed : Except SendErr String → Bool
  | .ok _ => true
  | .error _ => false

/-- The per-denom rule always denies a restricted denom headed to the fee
collector: with a non-active marker via the status error, with an active
one via the fee-collector error. -/
theorem validateSendDenom_feeCollector_denies
    (k : Keeper) (fromAddr toAddr : String) (admins : List String) (denom : String)
    (toMarker : Option MarkerAccount) (marker : MarkerAccount)
    (hlookup : k.getMarker (k.markerAddressOf denom) = .ok (some marker))
    (hres : marker.markerType = MarkerType.restrictedCoin)
    (hfee : (toAddr == k.feeCollectorAddr) = true) :
    ∃ e, k.validateSendDenom fromAddr toAddr admins denom toMarker = .error e := by
  by_cases hst : marker.status = MarkerStatus.active
  · exact ⟨.feeCollector denom, by simp [Keeper.validateSendDenom, hlookup, hst, hres, hfee]⟩
  · exact ⟨.denomNotActive denom marker.status, by simp [Keeper.validateSendDenom, hlookup, hst]⟩

/-- If the per-denom loop accepts, every coin's per-denom rule accepted. -/
theorem validateSendDenomLoop_ok (k : Keeper) (fromAddr toAddr : String) (admins : List String)
    (toMarker : Option MarkerAccount) (amt : List Coin)
    (h : k.validateSendDenomLoop fromAddr toAddr admins toMarker amt = .ok ()) :
    ∀ c ∈ amt, k.validateSendDenom fromAddr toAddr admins c.denom toMarker = .ok () := by
  induction amt with
  | nil => intro c hc; simp at hc
  | cons a rest ih =>
    intro c hc
    unfold Keeper.validateSendDenomLoop at h
    cases hv : k.validateSendDenom fromAddr toAddr admins a.denom toMarker with
    | error e => rw [hv] at h; simp at h
    | ok u =>
      cases u
      rw [hv] at h
      rcases List.mem_cons.mp hc with rfl | hcr
      · exact hv
      · exact ih h c hcr

/-- If the bypass-branch loop accepts, no coin resolves to a restricted
marker. -/
theorem checkFeeCollectorLoop_ok (k : Keeper) (amt : List Coin)
    (h : k.checkFeeCollectorLoop amt = .ok ()) :
    ∀ c ∈ amt, ∀ m, k.getMarker (k.markerAddressOf c.denom) = .ok (some m) →
      ¬(m.markerType = MarkerType.restrictedCoin) := by
  induction amt with
  | nil => intro c hc; simp at hc
  | cons a rest ih =>
    intro c hc m hm
    unfold Keeper.checkFeeCollectorLoop at h
    cases hv : k.getMarker (k.markerAddressOf a.denom) with
    | error e => simp [hv] at h
    | ok mo =>
      cases mo with
      | none =>
        simp only [hv] at h
        rcases List.mem_cons.mp hc with rfl | hcr
        · rw [hv] at hm; simp at hm
        · exact ih h c hcr m hm
      | some marker =>
        simp only [hv] at h
        by_cases hr : marker.markerType = MarkerType.restrictedCoin
        · rw [if_pos hr] at h; simp at h
        · rw [if_neg hr] at h
          rcases List.mem_cons.mp hc with rfl | hcr
          · rw [hv] at hm
            have hmm : marker = m := Option.some.inj (Except.ok.inj hm)
            intro hres
            exact hr (hmm ▸ hres)
          · exact ih h c hcr m hm

/-- In the bypass branch, the first coin resolving to a restricted marker
(after a prefix resolving without lookup error to non-restricted or no
marker) produces the fee-collector denial for its denom. -/
theorem checkFeeCollectorLoop_restricted (k : Keeper) (pre : List Coin) (c : Coin) (post : List Coin)
    (hpre : ∀ c' ∈ pre, ∃ mo, k.getMarker (k.markerAddressOf c'.denom) = .ok mo ∧
      ∀ m, mo = some m → ¬(m.markerType = MarkerType.restrictedCoin))
    (hc : ∃ m, k.getMarker (k.markerAddressOf c.denom) = .ok (some m) ∧
      m.markerType = MarkerType.restrictedCoin) :
    k.checkFeeCollectorLoop (pre ++ c :: post) = .error (.bypassFeeCollector c.denom) := by
  induction pre with
  | nil =>
    obtain ⟨m, hm, hres⟩ := hc
    show k.checkFeeCollectorLoop (c :: post) = _
    unfold Keeper.checkFeeCollectorLoop
    simp only [hm]
    rw [if_pos hres]
  | cons a rest ih =>
    obtain ⟨mo, hmo, hnr⟩ := hpre a (by simp)
    show k.checkFeeCollectorLoop (a :: (rest ++ c :: post)) = _
    unfold Keeper.checkFeeCollectorLoop
    cases mo with
    | none =>
      simp only [hmo]
      exact ih (fun c' hc' => hpre c' (by simp [hc']))
    | some marker =>
      simp only [hmo]
      rw [if_neg (hnr marker rfl)]
      exact ih (fun c' hc' => hpre c' (by simp [hc']))

/-- If the tail of the decision (deposit check plus per-denom loop)
allows, the per-denom loop accepted. -/
theorem sendRestrictionRest_ok (k : Keeper) (fromAddr toAddr : String) (admins : List String)
    (amt : List Coin) (s : String)
    (h : k.sendRestrictionRest fromAddr toAddr admins amt = .ok s) :
    k.validateSendDenomLoop fromAddr toAddr admins (k.getMarkerOpt toAddr) amt = .ok () := by
  unfold Keeper.sendRestrictionRest at h
  cases hd : depositCheck fromAddr admins (k.getMarkerOpt toAddr) with
  | error e => simp [hd] at h
  | ok u =>
    cases u
    simp only [hd] at h
    cases hl : k.validateSendDenomLoop fromAddr toAddr admins (k.getMarkerOpt toAddr) amt with
    | error e => simp [hl] at h
    | ok u2 => cases u2; rfl

/-- If the whole decision allows, then in the bypass branch the
fee-collector loop accepted, and otherwise the per-denom loop accepted. -/
theorem sendRestriction_ok_inv (k : Keeper) (ctx : Ctx) (fromAddr toAddr : String)
    (amt : List Coin) (s : String)
    (h : k.SendRestrictionFn ctx fromAddr toAddr amt = .ok s) :
    ((ctx.hasBypass || fromAddr == k.markerModuleAddr || fromAddr == k.ibcTransferModuleAddr) = true →
      (toAddr == k.feeCollectorAddr) = true → k.checkFeeCollectorLoop amt = .ok ()) ∧
    ((ctx.hasBypass || fromAddr == k.markerModuleAddr || fromAddr == k.ibcTransferModuleAddr) = false →
      k.validateSendDenomLoop fromAddr toAddr ctx.transferAgents (k.getMarkerOpt toAddr) amt = .ok ()) := by
  constructor
  · intro hby hfee
    unfold Keeper.SendRestrictionFn at h
    rw [if_pos hby, if_pos hfee] at h
    cases hl : k.checkFeeCollectorLoop amt with
    | error e => simp [hl] at h
    | ok u => cases u; rfl
  · intro hby
    unfold Keeper.SendRestrictionFn at h
    rw [if_neg (by simp [hby])] at h
    cases hgm : k.getMarkerOpt fromAddr with
    | none =>
      simp only [hgm] at h
      exact sendRestrictionRest_ok k fromAddr toAddr ctx.transferAgents amt s h
    | some fm =>
      simp only [hgm] at h
      cases hfg : ctx.hasFeeGrantInUse with
      | true =>
        simp only [hfg, Bool.not_true, Bool.false_eq_true, if_false] at h
        unfold Keeper.afterWithdrawChecks at h
        cases hst : activeStatusCheck fm fromAddr amt with
        | error e => simp [hst] at h
        | ok u2 =>
          cases u2
          simp only [hst] at h
          exact sendRestrictionRest_ok k fromAddr toAddr ctx.transferAgents amt s h
      | false =>
        simp only [hfg, Bool.not_false, if_true] at h
        cases hwc : withdrawCheck fm fromAddr ctx.transferAgents with
        | error e => simp [hwc] at h
        | ok u =>
          cases u
          simp only [hwc] at h
          unfold Keeper.afterWithdrawChecks at h
          cases hst : activeStatusCheck fm fromAddr amt with
          | error e => simp [hst] at h
          | ok u2 =>
            cases u2
            simp only [hst] at h
            exact sendRestrictionRest_ok k fromAddr toAddr ctx.transferAgents amt s h

/-- C2 (amended): a transfer of a denom resolving to a RestrictedCoin
marker whose destination is the fee collector is never allowed. The error
is the fee-collector denial in the bypass/module-account path for the
first restricted denom (given the preceding denoms resolve without
lookup error to non-restricted or no markers), and in the non-bypassed
path when the per-denom rule is reached with an Active marker; a
non-Active marker or an earlier failing check yields a different denial. -/
theorem sendRestriction_feeCollector_spec (k : Keeper) (ctx : Ctx) (fromAddr toAddr : String)
    (amt : List Coin) :
    (∀ c ∈ amt, ∀ m, (toAddr == k.feeCollectorAddr) = true →
      k.getMarker (k.markerAddressOf c.denom) = .ok (some m) →
      m.markerType = MarkerType.restrictedCoin →
      isAllowed (k.SendRestrictionFn ctx fromAddr toAddr amt) = false) ∧
    (∀ pre c post, amt = pre ++ c :: post →
      (ctx.hasBypass || fromAddr == k.markerModuleAddr || fromAddr == k.ibcTransferModuleAddr) = true →
      (toAddr == k.feeCollectorAddr) = true →
      (∀ c' ∈ pre, ∃ mo, k.getMarker (k.markerAddressOf c'.denom) = .ok mo ∧
        ∀ m, mo = some m → ¬(m.markerType = MarkerType.restrictedCoin)) →
      (∃ m, k.getMarker (k.markerAddressOf c.denom) = .ok (some m) ∧
        m.markerType = MarkerType.restrictedCoin) →
      k.SendRestrictionFn ctx fromAddr toAddr amt = .error (.bypassFeeCollector c.denom)) ∧
    (∀ c m, amt = [c] →
      ctx.hasBypass = false →
      (fromAddr == k.markerModuleAddr) = false →
      (fromAddr == k.ibcTransferModuleAddr) = false →
      (toAddr == k.feeCollectorAddr) = true →
      k.getMarkerOpt fromAddr = none →
      k.getMarkerOpt toAddr = none →
      k.getMarker (k.markerAddressOf c.denom) = .ok (some m) →
      m.status = MarkerStatus.active →
      m.markerType = MarkerType.restrictedCoin →
      k.SendRestrictionFn ctx fromAddr toAddr amt = .error (.feeCollector c.denom)) := by
  refine ⟨?_, ?_, ?_⟩
  · intro c hc m hfee hlook hres
    cases hr : k.SendRestrictionFn ctx fromAddr toAddr amt with
    | error e => rfl
    | ok s =>
      exfalso
      have hinv := sendRestriction_ok_inv k ctx fromAddr toAddr amt s hr
      cases hby : (ctx.hasBypass || fromAddr == k.markerModuleAddr || fromAddr == k.ibcTransferModuleAddr) with
      | true =>
        exact checkFeeCollectorLoop_ok k amt (hinv.1 hby hfee) c hc m hlook hres
      | false =>
        have hok := validateSendDenomLoop_ok k fromAddr toAddr ctx.transferAgents
          (k.getMarkerOpt toAddr) amt (hinv.2 hby) c hc
        obtain ⟨e, he⟩ := validateSendDenom_feeCollector_denies k fromAddr toAddr
          ctx.transferAgents c.denom (k.getMarkerOpt toAddr) m hlook hres hfee
        rw [hok] at he
        simp at he
  · intro pre c post hamt hby hfee hpre hc
    subst hamt
    unfold Keeper.SendRestrictionFn
    rw [if_pos hby, if_pos hfee]
    simp [checkFeeCollectorLoop_restricted k pre c post hpre hc]
  · intro c m hamt hnb hm1 hm2 hfee hgmf hgmt hlook hst hres
    subst hamt
    have hden : k.validateSendDenom fromAddr toAddr ctx.transferAgents c.denom none
        = .error (.feeCollector c.denom) := by
      simp [Keeper.validateSendDenom, hlook, hst, hres, hfee]
    simp [Keeper.SendRestrictionFn, hnb, hm1, hm2, hgmf, Keeper.sendRestrictionRest, hgmt,
      depositCheck, Keeper.validateSendDenomLoop, hden]

/-- C2 counterexample: a non-bypassed send of the proposed restricted
denom "pcoin" to the fee collector is denied with the marker-status
error, not the fee-collector error, although the destination is the fee
collector and the denom resolves to a RestrictedCoin marker. -/
theorem sendRestriction_feeCollector_counterexample :
    kTest.SendRestrictionFn ⟨false, false, []⟩ "alice" "feeCollector" [⟨"pcoin", 5⟩]
      = .error (.denomNotActive "pcoin" MarkerStatus.proposed) ∧
    isFeeCollectorDenial (kTest.SendRestrictionFn ⟨false, false, []⟩ "alice" "feeCollector" [⟨"pcoin", 5⟩]) = false ∧
    ("feeCollector" == kTest.feeCollectorAddr) = true ∧
    kTest.getMarker (kTest.markerAddressOf "pcoin") = .ok (some mProposed) ∧
    mProposed.markerType = MarkerType.restrictedCoin := by
  decide

/-- Witness for C2 at concrete inputs: the proposed-marker send is not
allowed; a bypassed two-coin send to the fee collector is denied on its
restricted coin; and a non-bypassed send by "dave" — who holds Transfer
and is on no deny list — is denied with the fee-collector error. -/
theorem sendRestriction_feeCollector_witness :
    isAllowed (kTest.SendRestrictionFn ⟨false, false, []⟩ "alice" "feeCollector" [⟨"pcoin", 5⟩]) = false ∧
    kTest.SendRestrictionFn ⟨true, false, []⟩ "alice" "feeCollector" [⟨"ocoin", 1⟩, ⟨"rcoin", 2⟩]
      = .error (.bypassFeeCollector "rcoin") ∧
    kTest.SendRestrictionFn ⟨false, false, []⟩ "dave" "feeCollector" [⟨"rcoin", 3⟩]
      = .error (.feeCollector "rcoin") ∧
    mRestricted.AddressHasAccess "dave" Access.transfer = true ∧
    kTest.isSendDeny (kTest.markerAddressOf "rcoin") "dave" = false :=
  ⟨(sendRestriction_feeCollector_spec kTest ⟨false, false, []⟩ "alice" "feeCollector" [⟨"pcoin", 5⟩]).1
      ⟨"pcoin", 5⟩ (by decide) mProposed (by decide) (by decide) (by decide),
   (sendRestriction_feeCollector_spec kTest ⟨true, false, []⟩ "alice" "feeCollector"
      [⟨"ocoin", 1⟩, ⟨"rcoin", 2⟩]).2.1 [⟨"ocoin", 1⟩] ⟨"rcoin", 2⟩ [] rfl (by decide) (by decide)
      (by
        intro c' hc'
        have hce : c' = ⟨"ocoin", 1⟩ := by simpa using hc'
        subst hce
        exact ⟨none, by decide, fun m hm => by cases hm⟩)
      ⟨mRestricted, by decide, by decide⟩,
   (sendRestriction_feeCollector_spec kTest ⟨false, false, []⟩ "dave" "feeCollector"
      [⟨"rcoin", 3⟩]).2.2 ⟨"rcoin", 3⟩ mRestricted rfl rfl (by decide) (by decide) (by decide)
      (by decide) (by decide) (by decide) (by decide) (by decide),
   by decide,
   by decide⟩

/-! ## Claims C7 and C10: GrantAccess merging -/

/-- The merge loop leaves the incoming grant's address unchanged. -/
theorem mergeExisting_address (access : AccessGrant) (l : List AccessGrant) :
    (mergeExisting access l).address = access.address := by
  induction l generalizing access with
  | nil => rfl
  | cons a rest ih =>
    show (mergeExisting (if a.address == access.address then access.mergeAdd a else access) rest).address = _
    rw [ih]
    by_cases h : a.address == access.address
    · simp [h, AccessGrant.mergeAdd]
    · simp [h]

/-- The merge loop is the identity when no existing entry carries the
incoming grant's address. -/
theorem mergeExisting_no_match (access : AccessGrant) (l : List AccessGrant)
    (h : ∀ g ∈ l, ¬(g.address = access.address)) :
    mergeExisting access l = access := by
  induction l with
  | nil => rfl
  | cons a rest ih =>
    show mergeExisting (if a.address == access.address then access.mergeAdd a else access) rest = access
    rw [if_neg (by simp [h a (List.mem_cons_self a rest)])]
    exact ih (fun g hg => h g (List.mem_cons_of_mem a hg))

/-- The merge loop splits over list append. -/
theorem mergeExisting_append (access : AccessGrant) (l1 l2 : List AccessGrant) :
    mergeExisting access (l1 ++ l2) = mergeExisting (mergeExisting access l1) l2 := by
  simp [mergeExisting, List.foldl_append]

/-- Characterization of a successful GrantAccess: the entries for the
granted address are removed and the merged grant is appended at the end. -/
theorem grantAccess_ok_inv (ma : MarkerAccount) (access : AccessGrant) (ma' : MarkerAccount)
    (h : ma.GrantAccess access = .ok ma') :
    ma'.accessControl = ma.accessControl.filter (fun ac => !(ac.address == access.address))
      ++ [⟨access.address, (mergeExisting access ma.accessControl).permissions⟩] := by
  unfold MarkerAccount.GrantAccess at h
  cases hv : access.validate with
  | error e => simp [hv] at h
  | ok u =>
    cases u
    simp only [hv] at h
    have hva : VerifyAddressFormat access.address = true := by
      unfold AccessGrant.validate at hv
      by_cases hV : VerifyAddressFormat access.address
      · exact hV
      · simp [hV] at hv
    unfold MarkerAccount.RevokeAccess at h
    rw [if_neg (by simp [hva])] at h
    have he := Except.ok.inj h
    rw [← he]
    simp [mergeExisting_address]

/-- C10: after a successful GrantAccess, the access-control list is the
prior list minus the granted address's entries with the merged grant
appended at the end; consequently, whenever the merged grant carries a
role, AddressListForPermission reports the granted address last. -/
theorem grantAccess_appends_merged (ma : MarkerAccount) (access : AccessGrant) (ma' : MarkerAccount)
    (h : ma.GrantAccess access = .ok ma') :
    (∃ perms, ma'.accessControl =
      ma.accessControl.filter (fun ac => !(ac.address == access.address)) ++ [⟨access.address, perms⟩]) ∧
    (∀ role, (mergeExisting access ma.accessControl).hasAccess role = true →
      ma'.AddressListForPermission role =
        ({ ma with accessControl := ma.accessControl.filter (fun ac => !(ac.address == access.address)) } : MarkerAccount).AddressListForPermission role
          ++ [access.address]) := by
  have he := grantAccess_ok_inv ma access ma' h
  refine ⟨⟨(mergeExisting access ma.accessControl).permissions, he⟩, ?_⟩
  intro role hrole
  unfold MarkerAccount.AddressListForPermission
  rw [he, List.filter_append, List.map_append]
  congr 1
  have : AccessGrant.hasAccess ⟨access.address, (mergeExisting access ma.accessControl).permissions⟩ role = true := by
    simpa [AccessGrant.hasAccess] using hrole
  simp [this]

/-- Fixture: a marker with grants for "bob" (Admin) and "carol" (Deposit). -/
def mTwo : MarkerAccount :=
  { address := "M-two", denom := "two", manager := "", supply := 5,
    status := MarkerStatus.proposed, markerType := MarkerType.coin,
    supplyFixed := true, allowGovernanceControl := true, allowForcedTransfer := false,
    accessControl := [⟨"bob", [Access.admin]⟩, ⟨"carol", [Access.deposit]⟩],
    requiredAttributes := [] }

/-- Fixture: `mTwo` after re-granting "bob" with Mint. -/
def mTwoAfter : MarkerAccount :=
  { address := "M-two", denom := "two", manager := "", supply := 5,
    status := MarkerStatus.proposed, markerType := MarkerType.coin,
    supplyFixed := true, allowGovernanceControl := true, allowForcedTransfer := false,
    accessControl := [⟨"carol", [Access.deposit]⟩, ⟨"bob", [Access.mint, Access.admin]⟩],
    requiredAttributes := [] }

/-- Witness for C10: re-granting "bob" moves its merged entry to the end,
so AddressListForPermission now reports "bob" after the untouched
entries. -/
theorem grantAccess_appends_witness :
    mTwoAfter.AddressListForPermission Access.admin =
      ({ mTwo with accessControl := mTwo.accessControl.filter (fun ac => !(ac.address == "bob")) } : MarkerAccount).AddressListForPermission Access.admin
        ++ ["bob"] ∧
    mTwoAfter.AddressListForPermission Access.admin = ["bob"] ∧
    mTwo.AddressListForPermission Access.admin = ["bob"] ∧
    mTwo.accessControl.map (fun g => g.address) = ["bob", "carol"] ∧
    mTwoAfter.accessControl.map (fun g => g.address) = ["carol", "bob"] :=
  ⟨(grantAccess_appends_merged mTwo ⟨"bob", [Access.mint]⟩ mTwoAfter (by decide)).2
      Access.admin (by decide),
   by decide, by decide, by decide, by decide⟩

/-- C7 counterexample: for a marker that already grants "bob" the Admin
role, granting role sets A = [Mint] then B = [Burn] leaves "bob" with
the roles {Burn, Mint, Admin}, not the plain union A ∪ B = {Mint, Burn}:
the pre-existing roles are merged in as well. -/
theorem grantAccess_twice_counterexample :
    mTwo.GrantAccess ⟨"bob", [Access.mint]⟩
      = .ok { mTwo with accessControl :=
          [⟨"carol", [Access.deposit]⟩, ⟨"bob", [Access.mint, Access.admin]⟩] } ∧
    ({ mTwo with accessControl := [⟨"carol", [Access.deposit]⟩, ⟨"bob", [Access.mint, Access.admin]⟩] } : MarkerAccount).GrantAccess ⟨"bob", [Access.burn]⟩
      = .ok { mTwo with accessControl :=
          [⟨"carol", [Access.deposit]⟩, ⟨"bob", [Access.burn, Access.mint, Access.admin]⟩] } ∧
    Access.admin ∈ [Access.burn, Access.mint, Access.admin] ∧
    Access.admin ∉ [Access.mint] ∧
    Access.admin ∉ [Access.burn] := by
  decide

/-- C7 amended: for an address with no pre-existing entry on the marker,
two successful grants with role sets A then B leave exactly one entry for
that address, placed last, whose role set is the union of A and B; with a
pre-existing entry its roles are unioned in as well. -/
theorem grantAccess_twice_union (ma : MarkerAccount) (addr : String) (A B : List Access)
    (ma1 ma2 : MarkerAccount)
    (h0 : ∀ g ∈ ma.accessControl, ¬(g.address = addr))
    (h1 : ma.GrantAccess ⟨addr, A⟩ = .ok ma1)
    (h2 : ma1.GrantAccess ⟨addr, B⟩ = .ok ma2) :
    ma2.accessControl.filter (fun g => g.address == addr)
      = [⟨addr, B ++ A.filter (fun r => !(B.contains r))⟩] ∧
    (∀ r, r ∈ B ++ A.filter (fun r => !(B.contains r)) ↔ r ∈ A ∨ r ∈ B) := by
  have e1 := grantAccess_ok_inv ma ⟨addr, A⟩ ma1 h1
  have hme1 : mergeExisting ⟨addr, A⟩ ma.accessControl = ⟨addr, A⟩ :=
    mergeExisting_no_match _ _ h0
  rw [hme1] at e1
  have hFprop : ∀ g ∈ ma.accessControl.filter (fun ac => !(ac.address == addr)),
      ¬(g.address = (⟨addr, B⟩ : AccessGrant).address) := by
    intro g hg
    simpa using (List.mem_filter.mp hg).2
  have e2 := grantAccess_ok_inv ma1 ⟨addr, B⟩ ma2 h2
  have hme2 : mergeExisting ⟨addr, B⟩ ma1.accessControl
      = ⟨addr, B ++ A.filter (fun r => !(B.contains r))⟩ := by
    rw [e1, mergeExisting_append, mergeExisting_no_match ⟨addr, B⟩ _ hFprop]
    show (if (⟨addr, A⟩ : AccessGrant).address == (⟨addr, B⟩ : AccessGrant).address
        then AccessGrant.mergeAdd ⟨addr, B⟩ ⟨addr, A⟩ else ⟨addr, B⟩) = _
    simp [AccessGrant.mergeAdd]
  rw [hme2] at e2
  constructor
  · rw [e2, List.filter_append]
    have hnil : (ma1.accessControl.filter (fun ac => !(ac.address == (⟨addr, B⟩ : AccessGrant).address))).filter
        (fun g => g.address == addr) = [] := by
      rw [List.filter_eq_nil_iff]
      intro g hg
      simpa using (List.mem_filter.mp hg).2
    rw [hnil]
    simp
  · intro r
    simp [List.mem_append, List.mem_filter]
    tauto

/-- Witness for C7: on a marker with no entry for "eve", granting
[Mint, Burn] then [Burn, Transfer] yields the single entry with the
role-set union. -/
theorem grantAccess_twice_witness :
    (({ mTwo with accessControl := [⟨"carol", [Access.deposit]⟩, ⟨"eve", [Access.burn, Access.transfer, Access.mint]⟩] } : MarkerAccount).accessControl.filter (fun g => g.address == "eve"))
      = [⟨"eve", [Access.burn, Access.transfer] ++ [Access.mint, Access.burn].filter (fun r => !([Access.burn, Access.transfer].contains r))⟩] ∧
    (Access.mint ∈ [Access.burn, Access.transfer] ++ [Access.mint, Access.burn].filter (fun r => !([Access.burn, Access.transfer].contains r))
      ↔ Access.mint ∈ [Access.mint, Access.burn] ∨ Access.mint ∈ [Access.burn, Access.transfer]) :=
  ⟨(grantAccess_twice_union { mTwo with accessControl := [⟨"carol", [Access.deposit]⟩] } "eve"
      [Access.mint, Access.burn] [Access.burn, Access.transfer]
      { mTwo with accessControl := [⟨"carol", [Access.deposit]⟩, ⟨"eve", [Access.mint, Access.burn]⟩] }
      { mTwo with accessControl := [⟨"carol", [Access.deposit]⟩, ⟨"eve", [Access.burn, Access.transfer, Access.mint]⟩] }
      (by decide) (by decide) (by decide)).1,
   (grantAccess_twice_union { mTwo with accessControl := [⟨"carol", [Access.deposit]⟩] } "eve"
      [Access.mint, Access.burn] [Access.burn, Access.transfer]
      { mTwo with accessControl := [⟨"carol", [Access.deposit]⟩, ⟨"eve", [Access.mint, Access.burn]⟩] }
      { mTwo with accessControl := [⟨"carol", [Access.deposit]⟩, ⟨"eve", [Access.burn, Access.transfer, Access.mint]⟩] }
      (by decide) (by decide) (by decide)).2 Access.mint⟩

end Provenance
